import Mathlib

/-!
Verification of the govfx CSS utility layer.

Go strings are modelled as lists of characters (`GoStr`); Go's byte
indexing coincides with character indexing on the ASCII inputs these
utilities are written for.  Fallible operations (Go panics) are modelled
with `Option`; Go's `(value, error)` returns are modelled with `Except`
or explicit pairs.
-/

/-- Go strings, modelled as character lists. -/
abbrev GoStr := List Char

/-- Conversion from a Lean string literal to a `GoStr`. -/
def gs (s : String) : GoStr := s.toList

namespace Govfx

/-- The sentinel error value `ErrNotFound` of the package. -/
inductive CssErr where
  | ErrNotFound
deriving DecidableEq

/-- Embeds Go `strings.HasPrefix`. -/
def hasPre (s p : GoStr) : Bool := p.isPrefixOf s

/-- Embeds Go `strings.TrimPrefix`: drop `p` from the front of `s` when
it is a prefix, otherwise return `s` unchanged. -/
def dropPre (s p : GoStr) : GoStr :=
  if p.isPrefixOf s then s.drop p.length else s

/-- Embeds Go `strings.TrimSpace` on character lists. -/
def trimSpace (s : GoStr) : GoStr :=
  ((s.dropWhile Char.isWhitespace).reverse.dropWhile Char.isWhitespace).reverse

/-- A hexadecimal digit, as accepted by base-16 `strconv` parsing. -/
def hexOK (c : Char) : Bool :=
  c.isDigit || ('a' ≤ c && c ≤ 'f') || ('A' ≤ c && c ≤ 'F')

/-- Numeric value of a hexadecimal digit. -/
def hexVal (c : Char) : Int :=
  if c.isDigit then (c.toNat : Int) - ('0'.toNat : Int)
  else if 'a' ≤ c && c ≤ 'f' then (c.toNat : Int) - ('a'.toNat : Int) + 10
  else if 'A' ≤ c && c ≤ 'F' then (c.toNat : Int) - ('A'.toNat : Int) + 10
  else 0

/-- Modelled from the spec: `parseIntBase16` is used by `ToRGB` and by
`RGBA` in css.go but its definition is not under src/.  The spec requires
the conversion to "produce correct red/green/blue components" from
hexadecimal input, so the string is parsed as a base-16 numeral, and an
invalid numeral yields 0 (Go's `strconv` returns 0 together with the
error that the callers discard). -/
def parseIntBase16 (s : GoStr) : Int :=
  if s ≠ [] ∧ s.all hexOK then s.foldl (fun a c => a * 16 + hexVal c) 0 else 0

/-- Embeds `doubleString`, which concatenates the string with itself. -/
def doubleString (c : GoStr) : GoStr := c ++ c

/-- The `#`-trimming step shared by `ToRGB` and css.go's `RGBA`:
`if strings.HasPrefix(hex, "#") { hex = strings.TrimPrefix(hex, "#") }`. -/
def trimHash (hex : GoStr) : GoStr :=
  if hasPre hex (gs "#") then dropPre hex (gs "#") else hex

/-- Decimal rendering of a Go `int` (`%d`). -/
def intStr (n : Int) : GoStr :=
  (if n < 0 then ['-'] else []) ++ (Nat.repr n.natAbs).toList

/-- Rendering of `float64(alpha)/100` under the `%.2f` verb.  For an
integer `alpha` the quotient has exactly two decimal places, so `%.2f`
prints it exactly: sign, integer part, and the two-digit fraction. -/
def formatAlpha (alpha : Int) : GoStr :=
  (if alpha < 0 then ['-'] else [])
    ++ (Nat.repr (alpha.natAbs / 100)).toList ++ ['.']
    ++ (if alpha.natAbs % 100 < 10 then ['0'] else [])
    ++ (Nat.repr (alpha.natAbs % 100)).toList

/-- The format string `"rgba(%d,%d,%d,%.2f)"` applied to the three color
components and `float64(alpha)/100`. -/
def rgbaStr (r g b alpha : Int) : GoStr :=
  gs "rgba(" ++ intStr r ++ gs "," ++ intStr g ++ gs ","
    ++ intStr b ++ gs "," ++ formatAlpha alpha ++ gs ")"

/-- Embeds `ToRGB` from part_000.  The out-of-range slice accesses that
Go panics on (fewer than three characters after the optional `#`) are
modelled as `none`. -/
def ToRGB (hex : GoStr) : Option (Int × Int × Int) :=
  if (trimHash hex).length < 6 then
    match trimHash hex with
    | c0 :: c1 :: c2 :: _ =>
        some (parseIntBase16 (doubleString [c0]),
              parseIntBase16 (doubleString [c1]),
              parseIntBase16 (doubleString [c2]))
    | _ => none
  else
    match trimHash hex with
    | a :: b :: c :: d :: e :: f :: _ =>
        some (parseIntBase16 [a, b], parseIntBase16 [c, d],
              parseIntBase16 [e, f])
    | _ => none

/-- Embeds `RGBA` from part_000: convert through `ToRGB`, then format. -/
def RGBA (hex : GoStr) (alpha : Int) : Option GoStr :=
  (ToRGB hex).map (fun t => rgbaStr t.1 t.2.1 t.2.2 alpha)

/-- Embeds `vendorTags`, the list of vendor names the package strips. -/
def vendorTags : List GoStr := [gs "moz", gs "webki", gs "O", gs "ms"]

/-- The vendored-name cleanup loop of `GetComputedStyleMap`: for each
vendor tag, trim the bare tag and then its `-tag-` form from the front. -/
def unvendor (key : GoStr) : GoStr :=
  vendorTags.foldl
    (fun n vo => dropPre (dropPre n vo) (gs "-" ++ vo ++ gs "-")) key

/-- Embeds `Unit`: a standard CSS unit is returned unchanged, anything
else defaults to `px`. -/
def Unit (u : GoStr) : GoStr :=
  if u = gs "rem" then u
  else if u = gs "em" then u
  else if u = gs "px" then u
  else if u = gs "%" then u
  else if u = gs "vw" then u
  else gs "px"

/-- The five units `Unit` recognises as standard. -/
def unitList : List GoStr := [gs "rem", gs "em", gs "px", gs "%", gs "vw"]

end Govfx

namespace CssGo

open Govfx (parseIntBase16 doubleString rgbaStr trimHash)

/-- Embeds `RGBA` from css.go, which inlines the hex parsing rather than
delegating to `ToRGB`.  As in `Govfx.ToRGB`, the panicking slice
accesses are modelled as `none`. -/
def RGBA (hex : GoStr) (alpha : Int) : Option GoStr :=
  if (trimHash hex).length < 6 then
    match trimHash hex with
    | c0 :: c1 :: c2 :: _ =>
        some (rgbaStr (parseIntBase16 (doubleString [c0]))
          (parseIntBase16 (doubleString [c1]))
          (parseIntBase16 (doubleString [c2])) alpha)
    | _ => none
  else
    match trimHash hex with
    | a :: b :: c :: d :: e :: f :: _ =>
        some (rgbaStr (parseIntBase16 [a, b]) (parseIntBase16 [c, d])
          (parseIntBase16 [e, f]) alpha)
    | _ => none

end CssGo

namespace Govfx

/-- Embeds the `ComputedStyle` struct of part_000. -/
structure ComputedStyle where
  Name : GoStr
  VendorName : GoStr
  Value : GoStr
  Values : List GoStr
  Priority : Bool
deriving DecidableEq

/-- Embeds `ComputedStyleMap`, a Go map from property name to style
record, modelled as an association list. -/
abbrev ComputedStyleMap := List (GoStr × ComputedStyle)

/-- Go map assignment `c[name] = v`: replace an existing binding in
place, otherwise append a new one. -/
def mapSet : ComputedStyleMap → GoStr → ComputedStyle → ComputedStyleMap
  | [], k, v => [(k, v)]
  | (k0, v0) :: rest, k, v =>
      if k0 = k then (k, v) :: rest else (k0, v0) :: mapSet rest k v

/-- Go map read `c[name]`, as an `Option`. -/
def mapGet : ComputedStyleMap → GoStr → Option ComputedStyle
  | [], _ => none
  | (k0, v0) :: rest, k => if k0 = k then some v0 else mapGet rest k

/-- Embeds `ComputedStyleMap.Has`. -/
def Has (c : ComputedStyleMap) (name : GoStr) : Bool :=
  (mapGet c name).isSome

/-- Embeds `ComputedStyleMap.Get`: the record when the key exists,
otherwise `ErrNotFound`. -/
def Get (c : ComputedStyleMap) (name : GoStr) : Except CssErr ComputedStyle :=
  match mapGet c name with
  | none => .error .ErrNotFound
  | some cs => .ok cs

/-- Embeds `ComputedStyleMap.Add`: a fresh record for a new name, and
for an existing name the record's `Value`, `Priority` and `Values`
fields are overwritten. -/
def Add (c : ComputedStyleMap) (name value : GoStr) (priority : Bool) :
    ComputedStyleMap :=
  if Has c name then
    match mapGet c name with
    | some m =>
        mapSet c name { m with Value := value, Priority := priority, Values := [value] }
    | none => c
  else
    mapSet c name ⟨name, name, value, [value], priority⟩

/-- A character matched by the class `[\w\-0-9]` of the `propName`
regular expression. -/
def wordChar (c : Char) : Bool := c.isAlphanum || c = '_' || c = '-'

/-- `propName.FindStringSubmatch(value)[1]`: the capture group of
`([\w\-0-9]+)\(?\)?` at the leftmost match, i.e. the first maximal run
of word characters.  A string with no word character has no match, and
Go panics indexing the nil result — modelled as `none`. -/
def propNameOf (value : GoStr) : Option GoStr :=
  match value.dropWhile (fun c => !wordChar c) with
  | [] => none
  | rest => some (rest.takeWhile wordChar)

/-- The replacement loop of `AddMore`: walk the `Values` list, extract
each entry's leading name, and substitute `value` for every entry whose
leading name is `p`; the returned flag records whether any entry
matched.  An entry with no extractable name panics in Go (`none`). -/
def replaceVals (p value : GoStr) : List GoStr → Option (List GoStr × Bool)
  | [] => some ([], false)
  | v :: rest =>
      match propNameOf v with
      | none => none
      | some vn =>
          match replaceVals p value rest with
          | none => none
          | some (rest2, found2) =>
              if vn = p then some (value :: rest2, true)
              else some (v :: rest2, found2)

/-- Embeds `ComputedStyleMap.AddMore`: a fresh record for a new name; a
`Values` list equal to `["none"]` is overwritten in place; otherwise the
new value replaces the entries sharing its leading function name, or is
appended when none does. -/
def AddMore (c : ComputedStyleMap) (name value : GoStr) (priority : Bool) :
    Option ComputedStyleMap :=
  if Has c name then
    match mapGet c name with
    | some m =>
        if m.Values = [gs "none"] then
          some (mapSet c name { m with Values := [value] })
        else
          match propNameOf value with
          | none => none
          | some prop =>
              match replaceVals prop value m.Values with
              | none => none
              | some (nv, found) =>
                  some (mapSet c name
                    { m with Values := if found then nv else m.Values ++ [value] })
    | none => some c
  else
    some (mapSet c name ⟨name, name, value, [value], priority⟩)

/-- The browser's CSS style declaration object, as the package observes
it: the key/value map returned by `ToMap`, and the two property lookups
invoked through `Call` (a `nil` result is `none`; the object behind a
non-nil result is represented by its `String()` rendering). -/
structure CSSStyleDeclaration where
  toMap : List (GoStr × GoStr)
  getPropertyValue : GoStr → Option GoStr
  getPropertyPriority : GoStr → Option GoStr

/-- The browser window, as the package observes it: a computed-style
lookup that may yield nothing. -/
structure BrowserWindow where
  getComputedStyle : Nat → GoStr → Option CSSStyleDeclaration

/-- Embeds `GetComputedStyle`: `ErrNotFound` exactly when the browser
lookup yields `nil`.  Elements are abstract handles. -/
def GetComputedStyle (w : BrowserWindow) (elem : Nat) (ps : GoStr) :
    Except CssErr CSSStyleDeclaration :=
  match w.getComputedStyle elem ps with
  | none => .error .ErrNotFound
  | some css => .ok css

/-- Embeds `GetComputedStyleValueWith`: `ErrNotFound` exactly when
`getPropertyValue` yields `nil`. -/
def GetComputedStyleValueWith (css : CSSStyleDeclaration) (prop : GoStr) :
    Except CssErr GoStr :=
  match css.getPropertyValue prop with
  | none => .error .ErrNotFound
  | some vs => .ok vs

/-- Embeds `GetComputedStylePriority`: the pair of the Go `int` result
and the Go `error` result (`none` = nil error). -/
def GetComputedStylePriority (css : CSSStyleDeclaration) (prop : GoStr) :
    Int × Option CssErr :=
  match css.getPropertyPriority prop with
  | none => (0, some .ErrNotFound)
  | some vs => if trimSpace vs = [] then (0, none) else (1, none)

/-- The record `GetComputedStyleMap` builds for one `ToMap` entry. -/
def styleRecord (css : CSSStyleDeclaration) (key val : GoStr) : ComputedStyle :=
  { Name := unvendor key
    VendorName := key
    Value := val
    Values := if trimSpace val ≠ gs "none" then [val] else []
    Priority := decide (0 < (GetComputedStylePriority css key).1) }

/-- The loop of `GetComputedStyleMap`: fold the `ToMap` entries into a
fresh map, keying each record by its unvendored name. -/
def buildStyleMap (css : CSSStyleDeclaration) : ComputedStyleMap :=
  css.toMap.foldl
    (fun m kv => mapSet m (unvendor kv.1) (styleRecord css kv.1 kv.2)) []

/-- Embeds `GetComputedStyleMap`. -/
def GetComputedStyleMap (w : BrowserWindow) (elem : Nat) (ps : GoStr) :
    Except CssErr ComputedStyleMap :=
  match GetComputedStyle w elem ps with
  | .error e => .error e
  | .ok css => .ok (buildStyleMap css)

/-- The property key carries a positive priority: `getPropertyPriority`
yields an object whose string is non-empty after whitespace trimming. -/
def prioPos (css : CSSStyleDeclaration) (k : GoStr) : Prop :=
  ∃ s, css.getPropertyPriority k = some s ∧ trimSpace s ≠ []

end Govfx

/-- A concrete style declaration carrying one `!important` property,
used to instantiate the priority theorem. -/
def cssImportant : Govfx.CSSStyleDeclaration :=
  ⟨[(gs "transform", gs "scale(2)")], fun _ => none,
    fun _ => some (gs "important")⟩

/-- The record `GetComputedStyleMap` builds from `cssImportant`. -/
def recImportant : Govfx.ComputedStyle :=
  Govfx.styleRecord cssImportant (gs "transform") (gs "scale(2)")

/-- A computed-style input whose only key is `-webkit-transform`, on
which the vendored-name cleanup fails to fire. -/
def cssWebkit : Govfx.CSSStyleDeclaration :=
  ⟨[(gs "-webkit-transform", gs "scale(2)")], fun _ => none, fun _ => none⟩

namespace Govfx

lemma dropPre_id (s p : GoStr) (h : hasPre s p = false) : dropPre s p = s := by
  unfold hasPre at h
  simp [dropPre, h]

lemma mapGet_mapSet (m : ComputedStyleMap) (k k2 : GoStr) (v : ComputedStyle) :
    mapGet (mapSet m k v) k2 = if k2 = k then some v else mapGet m k2 := by
  induction m with
  | nil => by_cases h : k2 = k <;> simp [mapSet, mapGet, h, Ne.symm]
  | cons kv rest ih =>
      obtain ⟨k0, v0⟩ := kv
      by_cases h0 : k0 = k
      · subst h0
        by_cases h2 : k2 = k0 <;> simp [mapSet, mapGet, h2, Ne.symm]
      · by_cases h2 : k2 = k0
        · subst h2
          have : ¬k2 = k := fun hh => h0 (hh ▸ rfl)
          simp [mapSet, mapGet, h0, this]
        · have h2s : k0 ≠ k2 := fun hh => h2 hh.symm
          simp [mapSet, mapGet, h0, h2s, ih]

end Govfx

lemma unit_eq_aux (u : GoStr) :
    Govfx.Unit u = if u ∈ Govfx.unitList then u else gs "px" := by
  unfold Govfx.Unit Govfx.unitList
  split_ifs with h1 h2 h3 h4 h5 <;> simp_all [List.mem_cons]

lemma px_mem_unitList : gs "px" ∈ Govfx.unitList := by
  unfold Govfx.unitList; simp [List.mem_cons]

/-- C10: `Unit` returns each of the five standard units unchanged and
`"px"` for every other string, so its image lies in the five-element
set and it is idempotent. -/
theorem unit_standard_or_px (u : GoStr) :
    (Govfx.Unit u = if u ∈ Govfx.unitList then u else gs "px")
      ∧ Govfx.Unit u ∈ Govfx.unitList
      ∧ Govfx.Unit (Govfx.Unit u) = Govfx.Unit u := by
  refine ⟨unit_eq_aux u, ?_, ?_⟩
  · rw [unit_eq_aux u]
    split_ifs with hm
    · exact hm
    · exact px_mem_unitList
  · by_cases hm : u ∈ Govfx.unitList
    · have h1 : Govfx.Unit u = u := by rw [unit_eq_aux u]; simp [hm]
      rw [h1]; exact h1
    · have h1 : Govfx.Unit u = gs "px" := by rw [unit_eq_aux u]; simp [hm]
      rw [h1, unit_eq_aux (gs "px")]
      simp [px_mem_unitList]

/-- C4: adding a property to an empty style map and retrieving it
returns a record carrying exactly the supplied value and priority. -/
theorem add_then_get_empty (name value : GoStr) (priority : Bool) :
    ∃ r, Govfx.Get (Govfx.Add [] name value priority) name = .ok r
      ∧ r.Value = value ∧ r.Priority = priority := by
  refine ⟨⟨name, name, value, [value], priority⟩, ?_, rfl, rfl⟩
  simp [Govfx.Add, Govfx.Has, Govfx.mapGet, Govfx.mapSet, Govfx.Get]

/-- C5: `Get`, `GetComputedStyleValueWith` and `GetComputedStyle` return
the sentinel `ErrNotFound` exactly when the underlying lookup yields
nothing. -/
theorem not_found_iff_lookup_none (c : Govfx.ComputedStyleMap) (name : GoStr)
    (css : Govfx.CSSStyleDeclaration) (prop : GoStr)
    (w : Govfx.BrowserWindow) (elem : Nat) (ps : GoStr) :
    (Govfx.Get c name = .error .ErrNotFound ↔ Govfx.mapGet c name = none)
      ∧ (Govfx.GetComputedStyleValueWith css prop = .error .ErrNotFound
          ↔ css.getPropertyValue prop = none)
      ∧ (Govfx.GetComputedStyle w elem ps = .error .ErrNotFound
          ↔ w.getComputedStyle elem ps = none) := by
  refine ⟨?_, ?_, ?_⟩
  · unfold Govfx.Get
    cases Govfx.mapGet c name <;> simp
  · unfold Govfx.GetComputedStyleValueWith
    cases css.getPropertyValue prop <;> simp
  · unfold Govfx.GetComputedStyle
    cases w.getComputedStyle elem ps <;> simp

/-- C2: a property name that carries no vendor tag at its front, neither
bare nor in `-tag-` form, passes through the vendored-name cleanup of
`GetComputedStyleMap` unchanged. -/
theorem unvendor_id_of_unvendored (name : GoStr)
    (h : ∀ vo ∈ Govfx.vendorTags,
      Govfx.hasPre name vo = false
        ∧ Govfx.hasPre name (gs "-" ++ vo ++ gs "-") = false) :
    Govfx.unvendor name = name := by
  have h1 := h (gs "moz") (by unfold Govfx.vendorTags; simp)
  have h2 := h (gs "webki") (by unfold Govfx.vendorTags; simp)
  have h3 := h (gs "O") (by unfold Govfx.vendorTags; simp)
  have h4 := h (gs "ms") (by unfold Govfx.vendorTags; simp)
  unfold Govfx.unvendor Govfx.vendorTags
  simp only [List.foldl]
  rw [Govfx.dropPre_id _ _ h1.1, Govfx.dropPre_id _ _ h1.2,
    Govfx.dropPre_id _ _ h2.1, Govfx.dropPre_id _ _ h2.2,
    Govfx.dropPre_id _ _ h3.1, Govfx.dropPre_id _ _ h3.2,
    Govfx.dropPre_id _ _ h4.1, Govfx.dropPre_id _ _ h4.2]

/-- Witness for C2 at the unvendored name `transform`. -/
theorem unvendor_id_of_unvendored_witness :
    Govfx.unvendor (gs "transform") = gs "transform" :=
  unvendor_id_of_unvendored (gs "transform") (by decide)

namespace Govfx

lemma gs_hash : gs "#" = ['#'] := rfl

lemma trimHash_hash (l : GoStr) : trimHash ('#' :: l) = l := by
  simp [trimHash, hasPre, dropPre, gs_hash, List.isPrefixOf]

lemma hexOK_ne_hash (c : Char) (h : hexOK c = true) : c ≠ '#' := by
  intro e
  subst e
  exact absurd h (by decide)

lemma trimHash_nohash (c : Char) (l : GoStr) (h : c ≠ '#') :
    trimHash (c :: l) = c :: l := by
  have hb : ('#' == c) = false := beq_eq_false_iff_ne.mpr (Ne.symm h)
  simp [trimHash, hasPre, dropPre, gs_hash, List.isPrefixOf, hb]

lemma parse_double (c : Char) (h : hexOK c = true) :
    parseIntBase16 [c, c] = 17 * hexVal c := by
  simp [parseIntBase16, h]
  ring

lemma parse_two (a b : Char) (ha : hexOK a = true) (hb : hexOK b = true) :
    parseIntBase16 [a, b] = 16 * hexVal a + hexVal b := by
  simp [parseIntBase16, ha, hb]
  ring

lemma toRGB_none_iff (hex : GoStr) :
    ToRGB hex = none ↔ (trimHash hex).length < 3 := by
  unfold ToRGB
  generalize trimHash hex = t
  by_cases h6 : t.length < 6
  · rw [if_pos h6]
    rcases t with _ | ⟨a, _ | ⟨b, _ | ⟨c, r⟩⟩⟩ <;>
      (simp [List.length_cons]; try omega)
  · rw [if_neg h6]
    rcases t with _ | ⟨a, _ | ⟨b, _ | ⟨c, _ | ⟨d, _ | ⟨e, _ | ⟨f, r⟩⟩⟩⟩⟩⟩ <;>
      first
        | exact absurd (by simp only [List.length_cons, List.length_nil]; omega) h6
        | (simp [List.length_cons]; try omega)

/-- The two `RGBA` implementations agree everywhere, panics included. -/
lemma cssgo_rgba_eq (hex : GoStr) (alpha : Int) :
    CssGo.RGBA hex alpha = RGBA hex alpha := by
  unfold CssGo.RGBA RGBA ToRGB
  generalize trimHash hex = t
  by_cases h6 : t.length < 6
  · rw [if_pos h6, if_pos h6]
    rcases t with _ | ⟨a, _ | ⟨b, _ | ⟨c, r⟩⟩⟩ <;> rfl
  · rw [if_neg h6, if_neg h6]
    rcases t with _ | ⟨a, _ | ⟨b, _ | ⟨c, _ | ⟨d, _ | ⟨e, _ | ⟨f, r⟩⟩⟩⟩⟩⟩ <;> rfl

end Govfx

/-- C9: the css.go `RGBA` and the part_000 `RGBA` (through `ToRGB`)
return identical results on every hex string and alpha. -/
theorem rgba_implementations_equal (hex : GoStr) (alpha : Int) :
    CssGo.RGBA hex alpha = Govfx.RGBA hex alpha :=
  Govfx.cssgo_rgba_eq hex alpha

/-- C8: after the optional `#` is removed, fewer than three characters
makes `ToRGB` (and both `RGBA`s) fault on an out-of-range access, while
three or more characters always produce a value. -/
theorem toRGB_needs_three_chars (hex : GoStr) (alpha : Int) :
    ((Govfx.trimHash hex).length < 3 →
        Govfx.ToRGB hex = none ∧ Govfx.RGBA hex alpha = none
          ∧ CssGo.RGBA hex alpha = none)
      ∧ (3 ≤ (Govfx.trimHash hex).length →
        (Govfx.ToRGB hex).isSome = true ∧ (Govfx.RGBA hex alpha).isSome = true
          ∧ (CssGo.RGBA hex alpha).isSome = true) := by
  constructor
  · intro h3
    have hn : Govfx.ToRGB hex = none := (Govfx.toRGB_none_iff hex).mpr h3
    have hr : Govfx.RGBA hex alpha = none := by
      unfold Govfx.RGBA
      rw [hn]
      rfl
    exact ⟨hn, hr, by rw [Govfx.cssgo_rgba_eq]; exact hr⟩
  · intro h3
    have hn : Govfx.ToRGB hex ≠ none := by
      intro h
      rw [Govfx.toRGB_none_iff] at h
      omega
    have hs : (Govfx.ToRGB hex).isSome = true := Option.ne_none_iff_isSome.mp hn
    obtain ⟨v, hv⟩ := Option.isSome_iff_exists.mp hs
    have hr : (Govfx.RGBA hex alpha).isSome = true := by
      unfold Govfx.RGBA
      rw [hv]
      rfl
    exact ⟨hs, hr, by rw [Govfx.cssgo_rgba_eq]; exact hr⟩

/-- Witness for C8: a two-character input faults, a three-character
input succeeds. -/
theorem toRGB_needs_three_chars_witness :
    (Govfx.ToRGB (gs "ab") = none ∧ Govfx.RGBA (gs "ab") 10 = none
        ∧ CssGo.RGBA (gs "ab") 10 = none)
      ∧ ((Govfx.ToRGB (gs "abc")).isSome = true
        ∧ (Govfx.RGBA (gs "abc") 10).isSome = true
        ∧ (CssGo.RGBA (gs "abc") 10).isSome = true) :=
  ⟨(toRGB_needs_three_chars (gs "ab") 10).1 (by decide),
   (toRGB_needs_three_chars (gs "abc") 10).2 (by decide)⟩

namespace Govfx

lemma trimHash_opt (wh : Bool) (c : Char) (l : GoStr) (h : hexOK c = true) :
    trimHash ((if wh then ['#'] else []) ++ (c :: l)) = c :: l := by
  cases wh
  · simp only [Bool.false_eq_true, if_false, List.nil_append]
    exact trimHash_nohash c l (hexOK_ne_hash c h)
  · simp only [if_true, List.cons_append, List.nil_append]
    exact trimHash_hash (c :: l)

lemma toRGB_three (c0 c1 c2 : Char) (wh : Bool)
    (h0 : hexOK c0 = true) (h1 : hexOK c1 = true) (h2 : hexOK c2 = true) :
    ToRGB ((if wh then ['#'] else []) ++ [c0, c1, c2])
      = some (17 * hexVal c0, 17 * hexVal c1, 17 * hexVal c2) := by
  have ht := trimHash_opt wh c0 [c1, c2] h0
  unfold ToRGB
  rw [ht]
  rw [if_pos (by simp only [List.length_cons, List.length_nil]; omega)]
  show some (parseIntBase16 (doubleString [c0]), parseIntBase16 (doubleString [c1]),
    parseIntBase16 (doubleString [c2])) = _
  have hd : ∀ c : Char, doubleString [c] = [c, c] := fun c => rfl
  rw [hd, hd, hd, parse_double c0 h0, parse_double c1 h1, parse_double c2 h2]

lemma toRGB_six (d0 d1 d2 d3 d4 d5 : Char) (wh : Bool)
    (h0 : hexOK d0 = true) (h1 : hexOK d1 = true) (h2 : hexOK d2 = true)
    (h3 : hexOK d3 = true) (h4 : hexOK d4 = true) (h5 : hexOK d5 = true) :
    ToRGB ((if wh then ['#'] else []) ++ [d0, d1, d2, d3, d4, d5])
      = some (16 * hexVal d0 + hexVal d1, 16 * hexVal d2 + hexVal d3,
          16 * hexVal d4 + hexVal d5) := by
  have ht := trimHash_opt wh d0 [d1, d2, d3, d4, d5] h0
  unfold ToRGB
  rw [ht]
  rw [if_neg (by simp only [List.length_cons, List.length_nil]; omega)]
  show some (parseIntBase16 [d0, d1], parseIntBase16 [d2, d3],
    parseIntBase16 [d4, d5]) = _
  rw [parse_two d0 d1 h0 h1, parse_two d2 d3 h2 h3, parse_two d4 d5 h4 h5]

end Govfx

/-- C1: on a valid 3-digit hex color (each digit doubled, so each
component is 17 times the digit value) or a valid 6-digit hex color
(each component 16 times the high digit plus the low digit), with or
without a leading `#`, `RGBA` renders `rgba(r,g,b,a)` with decimal
components and the alpha fraction `alpha/100` to two decimal places; in
particular `RGBA "fff" 50 = "rgba(255,255,255,0.50)"`. -/
theorem rgba_hex_correct (wh : Bool) (c0 c1 c2 d0 d1 d2 d3 d4 d5 : Char)
    (alpha : Int)
    (h0 : Govfx.hexOK c0 = true) (h1 : Govfx.hexOK c1 = true)
    (h2 : Govfx.hexOK c2 = true) (g0 : Govfx.hexOK d0 = true)
    (g1 : Govfx.hexOK d1 = true) (g2 : Govfx.hexOK d2 = true)
    (g3 : Govfx.hexOK d3 = true) (g4 : Govfx.hexOK d4 = true)
    (g5 : Govfx.hexOK d5 = true) :
    Govfx.RGBA ((if wh then ['#'] else []) ++ [c0, c1, c2]) alpha
        = some (gs "rgba(" ++ Govfx.intStr (17 * Govfx.hexVal c0) ++ gs ","
            ++ Govfx.intStr (17 * Govfx.hexVal c1) ++ gs ","
            ++ Govfx.intStr (17 * Govfx.hexVal c2) ++ gs ","
            ++ Govfx.formatAlpha alpha ++ gs ")")
      ∧ Govfx.RGBA ((if wh then ['#'] else []) ++ [d0, d1, d2, d3, d4, d5]) alpha
        = some (gs "rgba("
            ++ Govfx.intStr (16 * Govfx.hexVal d0 + Govfx.hexVal d1) ++ gs ","
            ++ Govfx.intStr (16 * Govfx.hexVal d2 + Govfx.hexVal d3) ++ gs ","
            ++ Govfx.intStr (16 * Govfx.hexVal d4 + Govfx.hexVal d5) ++ gs ","
            ++ Govfx.formatAlpha alpha ++ gs ")")
      ∧ Govfx.RGBA (gs "fff") 50 = some (gs "rgba(255,255,255,0.50)") := by
  refine ⟨?_, ?_, by decide⟩
  · unfold Govfx.RGBA
    rw [Govfx.toRGB_three c0 c1 c2 wh h0 h1 h2]
    simp [Govfx.rgbaStr]
  · unfold Govfx.RGBA
    rw [Govfx.toRGB_six d0 d1 d2 d3 d4 d5 wh g0 g1 g2 g3 g4 g5]
    simp [Govfx.rgbaStr]

/-- Witness for C1 at `fff` / `ff00ff` with alpha 50 and no `#`. -/
theorem rgba_hex_correct_witness :
    Govfx.RGBA ((if false then ['#'] else []) ++ ['f', 'f', 'f']) 50
        = some (gs "rgba(" ++ Govfx.intStr (17 * Govfx.hexVal 'f') ++ gs ","
            ++ Govfx.intStr (17 * Govfx.hexVal 'f') ++ gs ","
            ++ Govfx.intStr (17 * Govfx.hexVal 'f') ++ gs ","
            ++ Govfx.formatAlpha 50 ++ gs ")")
      ∧ Govfx.RGBA ((if false then ['#'] else []) ++ ['f', 'f', '0', '0', 'f', 'f']) 50
        = some (gs "rgba("
            ++ Govfx.intStr (16 * Govfx.hexVal 'f' + Govfx.hexVal 'f') ++ gs ","
            ++ Govfx.intStr (16 * Govfx.hexVal '0' + Govfx.hexVal '0') ++ gs ","
            ++ Govfx.intStr (16 * Govfx.hexVal 'f' + Govfx.hexVal 'f') ++ gs ","
            ++ Govfx.formatAlpha 50 ++ gs ")")
      ∧ Govfx.RGBA (gs "fff") 50 = some (gs "rgba(255,255,255,0.50)") :=
  rgba_hex_correct false 'f' 'f' 'f' 'f' 'f' '0' '0' 'f' 'f' 50
    (by decide) (by decide) (by decide) (by decide) (by decide) (by decide)
    (by decide) (by decide) (by decide)

namespace Govfx

lemma replaceVals_eq (p value : GoStr) (l : List GoStr)
    (h : ∀ v ∈ l, (propNameOf v).isSome = true) :
    replaceVals p value l
      = some (l.map (fun v => if propNameOf v = some p then value else v),
          l.any (fun v => decide (propNameOf v = some p))) := by
  induction l with
  | nil => rfl
  | cons v rest ih =>
      have hv := h v (List.mem_cons_self v rest)
      obtain ⟨vn, hvn⟩ := Option.isSome_iff_exists.mp hv
      have hrest := ih (fun x hx => h x (List.mem_cons_of_mem v hx))
      unfold replaceVals
      rw [hvn, hrest]
      by_cases hp : vn = p
      · subst hp
        simp [hvn]
      · have hne : propNameOf v ≠ some p := by
          rw [hvn]
          exact fun e => hp (Option.some.inj e)
        simp [hp, hvn, hne]

end Govfx

/-- C6: `AddMore` creates a fresh single-value record for an absent
name; a `Values` list equal to `["none"]` is overwritten in place by
the new value; otherwise the new value replaces every stored entry
sharing its leading function name, and is appended when no entry
does. -/
theorem addmore_merge_or_append (c : Govfx.ComputedStyleMap)
    (name value : GoStr) (priority : Bool) (m : Govfx.ComputedStyle)
    (p : GoStr) :
    (Govfx.mapGet c name = none →
        Govfx.AddMore c name value priority
          = some (Govfx.mapSet c name ⟨name, name, value, [value], priority⟩))
      ∧ (Govfx.mapGet c name = some m → m.Values = [gs "none"] →
        Govfx.AddMore c name value priority
          = some (Govfx.mapSet c name { m with Values := [value] }))
      ∧ (Govfx.mapGet c name = some m → m.Values ≠ [gs "none"] →
         Govfx.propNameOf value = some p →
         (∀ v ∈ m.Values, (Govfx.propNameOf v).isSome = true) →
         ((∃ v ∈ m.Values, Govfx.propNameOf v = some p) →
            Govfx.AddMore c name value priority
              = some (Govfx.mapSet c name
                  { m with Values := m.Values.map (fun v => if Govfx.propNameOf v = some p then value else v) }))
           ∧ ((∀ v ∈ m.Values, Govfx.propNameOf v ≠ some p) →
            Govfx.AddMore c name value priority
              = some (Govfx.mapSet c name
                  { m with Values := m.Values ++ [value] }))) := by
  refine ⟨?_, ?_, ?_⟩
  · intro hn
    unfold Govfx.AddMore Govfx.Has
    rw [hn]
    rfl
  · intro hs hnone
    unfold Govfx.AddMore Govfx.Has
    rw [hs]
    simp [hnone]
  · intro hs hnnone hpv hall
    constructor
    · intro hex
      unfold Govfx.AddMore Govfx.Has
      rw [hs]
      simp only [Option.isSome_some, if_pos]
      rw [if_neg hnnone, hpv]
      have hany : m.Values.any (fun v => decide (Govfx.propNameOf v = some p)) = true := by
        rw [List.any_eq_true]
        obtain ⟨v, hv, he⟩ := hex
        exact ⟨v, hv, by simp [he]⟩
      simp [Govfx.replaceVals_eq p value m.Values hall, hany]
    · intro hnex
      unfold Govfx.AddMore Govfx.Has
      rw [hs]
      simp only [Option.isSome_some, if_pos]
      rw [if_neg hnnone, hpv]
      have hany : m.Values.any (fun v => decide (Govfx.propNameOf v = some p)) = false := by
        rw [List.any_eq_false]
        intro v hv
        simp [hnex v hv]
      simp [Govfx.replaceVals_eq p value m.Values hall, hany]

/-- Witness for C6: replacing the matching `scale(...)` entry in a
two-entry transform list, appending a new `skew(...)` entry, and the
fresh-name and `["none"]` cases. -/
theorem addmore_merge_or_append_witness :
    Govfx.AddMore
        [(gs "transform",
          ⟨gs "transform", gs "transform", gs "scale(1)",
            [gs "scale(1)", gs "rotate(30deg)"], false⟩)]
        (gs "transform") (gs "scale(2)") false
      = some [(gs "transform",
          ⟨gs "transform", gs "transform", gs "scale(1)",
            [gs "scale(2)", gs "rotate(30deg)"], false⟩)] := by
  have h := (addmore_merge_or_append
    [(gs "transform",
      ⟨gs "transform", gs "transform", gs "scale(1)",
        [gs "scale(1)", gs "rotate(30deg)"], false⟩)]
    (gs "transform") (gs "scale(2)") false
    ⟨gs "transform", gs "transform", gs "scale(1)",
      [gs "scale(1)", gs "rotate(30deg)"], false⟩
    (gs "scale")).2.2 (by decide) (by decide) (by decide) (by decide)
  rw [h.1 (by decide)]
  decide

namespace Govfx

lemma styleRecord_priority (css : CSSStyleDeclaration) (key val : GoStr) :
    (styleRecord css key val).Priority = true ↔ prioPos css key := by
  unfold styleRecord prioPos GetComputedStylePriority
  cases hp : css.getPropertyPriority key with
  | none => simp [hp]
  | some s =>
      by_cases ht : trimSpace s = []
      · simp [hp, ht]
      · simp [hp, ht]

lemma buildLoop_good (css : CSSStyleDeclaration) (l : List (GoStr × GoStr))
    (m0 : ComputedStyleMap)
    (hm : ∀ k r, mapGet m0 k = some r →
      (r.Priority = true ↔ prioPos css r.VendorName)) :
    ∀ k r,
      mapGet (l.foldl
        (fun m kv => mapSet m (unvendor kv.1) (styleRecord css kv.1 kv.2)) m0) k
        = some r →
      (r.Priority = true ↔ prioPos css r.VendorName) := by
  induction l generalizing m0 with
  | nil => exact hm
  | cons kv rest ih =>
      intro k r hr
      refine ih (mapSet m0 (unvendor kv.1) (styleRecord css kv.1 kv.2)) ?_ k r hr
      intro k2 r2 h2
      rw [mapGet_mapSet] at h2
      by_cases he : k2 = unvendor kv.1
      · rw [if_pos he] at h2
        have : r2 = styleRecord css kv.1 kv.2 := (Option.some.inj h2).symm
        subst this
        exact styleRecord_priority css kv.1 kv.2
      · rw [if_neg he] at h2
        exact hm k2 r2 h2

end Govfx

/-- C7: `GetComputedStylePriority` only ever returns 0 or 1, and every
record in the map built by `GetComputedStyleMap` has its boolean
`Priority` set exactly when `getPropertyPriority` on the record's
original (vendored) key yields a string that is non-empty after
whitespace trimming. -/
theorem priority_flag_correct (css : Govfx.CSSStyleDeclaration)
    (prop name : GoStr) (r : Govfx.ComputedStyle) :
    ((Govfx.GetComputedStylePriority css prop).1 = 0
        ∨ (Govfx.GetComputedStylePriority css prop).1 = 1)
      ∧ (Govfx.mapGet (Govfx.buildStyleMap css) name = some r →
          (r.Priority = true ↔ Govfx.prioPos css r.VendorName)) := by
  constructor
  · unfold Govfx.GetComputedStylePriority
    cases hp : css.getPropertyPriority prop with
    | none => left; rfl
    | some s =>
        by_cases ht : Govfx.trimSpace s = []
        · left; simp [ht]
        · right; simp [ht]
  · intro hr
    exact Govfx.buildLoop_good css css.toMap []
      (fun k r2 h => by cases h) name r hr

/-- Witness for C7 on `cssImportant`. -/
theorem priority_flag_correct_witness :
    ((Govfx.GetComputedStylePriority cssImportant (gs "transform")).1 = 0
        ∨ (Govfx.GetComputedStylePriority cssImportant (gs "transform")).1 = 1)
      ∧ (recImportant.Priority = true
          ↔ Govfx.prioPos cssImportant recImportant.VendorName) :=
  ⟨(priority_flag_correct cssImportant (gs "transform") (gs "transform")
      recImportant).1,
   (priority_flag_correct cssImportant (gs "transform") (gs "transform")
      recImportant).2 (by decide)⟩

/-- C3 (counterexample to the claimed normalization, exhibiting the
`"webki"`-for-`"webkit"` slip in `vendorTags`): a `-moz-` key is
normalized to its bare name, but a `-webkit-` key is left untouched, so
the record for `-webkit-transform` is stored under the vendored key and
no `transform` key exists. -/
theorem webkit_key_not_normalized :
    Govfx.unvendor (gs "-moz-transform") = gs "transform"
      ∧ Govfx.unvendor (gs "-webkit-transform") = gs "-webkit-transform"
      ∧ Govfx.mapGet (Govfx.buildStyleMap cssWebkit) (gs "transform") = none
      ∧ (Govfx.mapGet (Govfx.buildStyleMap cssWebkit)
          (gs "-webkit-transform")).isSome = true
      ∧ (gs "webki") ∈ Govfx.vendorTags ∧ (gs "webkit") ∉ Govfx.vendorTags := by
  decide
